import Mathlib

/-!
Verification of the MCQ-parsing pipeline (`src/app.py`).

The development shallowly embeds the pieces of the program the claims
are about: JSON values as returned by `json.loads`, Python dictionary
operations (`get` with default, item assignment, `pop`, `copy`),
Python list indexing (including negative indices and `IndexError`),
truthiness, the response normalizer of the main upload loop, the image
binder `match_images_to_questions`, the retry loop around the oracle
call, the batch loop over uploaded files, the temp-file lifecycle of
`process_file_with_enhanced_extraction`, the per-page image-extraction
loop of `extract_images_from_pdf_advanced`, and the persistence upsert
keyed on `questionStem`.

External library calls (`json.loads`, the OpenAI client, the Supabase
upload) are modelled as parameters of the pipeline environment; the
code under verification only consumes their results.
-/

/-- Errors a modelled Python expression can raise. -/
inductive PyErr where
  | typeError
  | indexError
  | ioError
  deriving Repr, DecidableEq

/-- JSON values as produced by `json.loads`: `null`, booleans, integers,
strings, arrays, and objects (ordered key/value lists, as Python dicts
preserve insertion order).  Non-integral numbers do not occur in the
replies the claims are about and are not modelled. -/
inductive Json where
  | null : Json
  | bool (b : Bool) : Json
  | num (n : Int) : Json
  | str (s : String) : Json
  | arr (xs : List Json) : Json
  | obj (kvs : List (String × Json)) : Json

/-- A Python dict with string keys, in insertion order. -/
abbrev PyDict := List (String × Json)

/-- Python `d.get(k)`: the value at `k`, if present. -/
def dictGet? (d : PyDict) (k : String) : Option Json :=
  (d.find? (fun kv => kv.1 = k)).map (fun kv => kv.2)

/-- Python `d.get(k, dflt)`. -/
def dictGetD (d : PyDict) (k : String) (dflt : Json) : Json :=
  (dictGet? d k).getD dflt

/-- Python `d[k] = v`: replace in place if the key exists (keeping its
position), otherwise append at the end. -/
def dictSet (d : PyDict) (k : String) (v : Json) : PyDict :=
  if d.any (fun kv => kv.1 = k) then
    d.map (fun kv => if kv.1 = k then (k, v) else kv)
  else
    d ++ [(k, v)]

/-- Python `d.pop(k, None)`: remove the key if present. -/
def dictPop (d : PyDict) (k : String) : PyDict :=
  d.filter (fun kv => ¬ kv.1 = k)

/-- Python truthiness of a JSON value (`if x:`). -/
def truthy : Json → Bool
  | Json.null => false
  | Json.bool b => b
  | Json.num n => n ≠ 0
  | Json.str s => s ≠ ""
  | Json.arr xs => ¬ xs.isEmpty
  | Json.obj kvs => ¬ kvs.isEmpty

/-- Python `x < n` for a JSON value against an `int`: defined for
numbers and booleans (`bool` is an `int` subclass), `TypeError`
otherwise (e.g. `str < int`). -/
def pyLtInt (j : Json) (n : Int) : Except PyErr Bool :=
  match j with
  | Json.num a => Except.ok (decide (a < n))
  | Json.bool b => Except.ok (decide ((if b then (1 : Int) else 0) < n))
  | _ => Except.error PyErr.typeError

/-- The integer a JSON value denotes when used as a list index:
numbers and booleans only, `TypeError` otherwise. -/
def pyToIndex (j : Json) : Except PyErr Int :=
  match j with
  | Json.num a => Except.ok a
  | Json.bool b => Except.ok (if b then 1 else 0)
  | _ => Except.error PyErr.typeError

/-- Python list indexing `xs[i]`: negative indices count from the end;
out-of-range raises `IndexError`. -/
def pyIndex {α : Type} (xs : List α) (i : Int) : Except PyErr α :=
  let j : Int := if i < 0 then i + xs.length else i
  if h : 0 ≤ j ∧ j.toNat < xs.length then
    Except.ok (xs.get ⟨j.toNat, h.2⟩)
  else
    Except.error PyErr.indexError

/-! ## Response normalization (main upload loop, `src/app.py` 446-460)

After `json.loads`, the loop tags each record with `source_file` and
collects `file_questions`: if the top-level value is a dict, one entry
per key/value pair, in insertion order; otherwise the single value is
tagged directly.  The tagging `question_set['source_file'] = file_name`
is Python item assignment: it raises `TypeError` on any non-dict. -/

/-- Python `j['source_file'] = file_name` followed by using `j` as a
record: succeeds exactly when `j` is a dict. -/
def setSourceFile (j : Json) (fileName : String) : Except PyErr PyDict :=
  match j with
  | Json.obj kvs => Except.ok (dictSet kvs "source_file" (Json.str fileName))
  | _ => Except.error PyErr.typeError

/-- Total variant of the tagging, used to state how the successful
case rewrites each record. -/
def tagSource (fileName : String) (j : Json) : PyDict :=
  match j with
  | Json.obj kvs => dictSet kvs "source_file" (Json.str fileName)
  | _ => []

/-- The `parsed_data` handling of the main upload loop
(`src/app.py` 454-460): a dict yields one tagged record per key/value
pair in insertion order; any other top-level value hits the
item-assignment on a non-dict and raises. -/
def normalizeReply (parsed : Json) (fileName : String) :
    Except PyErr (List PyDict) :=
  match parsed with
  | Json.obj kvs => kvs.mapM (fun kv => setSourceFile kv.2 fileName)
  | other => do
      let tagged ← setSourceFile other fileName
      pure [tagged]

/-- Whether a JSON value is an object (a Python dict). -/
def isJsonObj : Json → Bool
  | Json.obj _ => true
  | _ => false

/-! ## Image binding (`match_images_to_questions`, `src/app.py` 181-220) -/

/-- An extracted image as consumed by the binder: its binary payload and
filename (the only fields `match_images_to_questions` reads). -/
structure ImageInfo where
  data : String
  filename : String

/-- The field clean-up performed on every record before it is appended
(`question_copy.pop` of the three transient keys, `src/app.py` 213-216,
also the no-image path 469-472). -/
def cleanupFields (q : PyDict) : PyDict :=
  dictPop (dictPop (dictPop q "hasImage") "imagePosition") "source_file"

/-- One iteration of the `match_images_to_questions` loop for the record
at position `i`.  `upl` models `upload_image_to_supabase_storage`, which
catches its own exceptions and returns a URL or `None` (arguments:
image data, image filename, question index).  The bounds comparison
`image_position < len(extracted_images)` sits outside the inner `try`,
so a non-numeric `imagePosition` raises out of the whole function;
indexing and uploading sit inside the `try`, whose handler only logs. -/
def bindQuestion (upl : String → String → Nat → Option String)
    (images : List ImageInfo) (i : Nat) (q : PyDict) :
    Except PyErr PyDict := do
  let hasImage := dictGetD q "hasImage" (Json.bool false)
  let imagePos := dictGetD q "imagePosition" (Json.num (Int.ofNat i))
  let cond ← if truthy hasImage then
      pyLtInt imagePos (Int.ofNat images.length)
    else
      pure false
  let q1 :=
    if cond then
      match pyToIndex imagePos with
      | Except.error _ => q
      | Except.ok idx =>
        match pyIndex images idx with
        | Except.error _ => q
        | Except.ok img =>
          match upl img.data img.filename i with
          | some url => dictSet q "image" (Json.str url)
          | none => q
    else q
  pure (cleanupFields q1)

/-- The loop of `match_images_to_questions` over the parsed questions,
starting at index `i`.  An exception in any iteration propagates out of
the function (discarding the partial list). -/
def matchLoop (upl : String → String → Nat → Option String)
    (images : List ImageInfo) : Nat → List PyDict →
    Except PyErr (List PyDict)
  | _, [] => Except.ok []
  | i, q :: rest => do
      let q1 ← bindQuestion upl images i q
      let rest1 ← matchLoop upl images (i + 1) rest
      pure (q1 :: rest1)

/-- `match_images_to_questions(parsed_questions, extracted_images, ...)`. -/
def match_images_to_questions (upl : String → String → Nat → Option String)
    (images : List ImageInfo) (qs : List PyDict) :
    Except PyErr (List PyDict) :=
  matchLoop upl images 0 qs

/-! ## Oracle retry loop (main upload loop, `src/app.py` 361-493) -/

/-- Outcome of one call to the external oracle: a raw text reply, or an
exception from the client (network / oracle-side error). -/
inductive OracleCall where
  | reply (raw : String) : OracleCall
  | transportError (msg : String) : OracleCall

/-- The environment of external services the loop consumes: the oracle
(per document name and attempt number), `json.loads` (`none` models
`json.JSONDecodeError`), and the storage upload. -/
structure PipeEnv where
  oracle : String → Nat → OracleCall
  parse : String → Option Json
  upload : String → String → Nat → Option String

/-- Python `str.replace` on character lists: scan left to right,
replacing each non-overlapping occurrence of `pat` by `rep`.  The first
argument counts characters still to be consumed as part of an already
replaced occurrence. -/
def replaceGo (pat rep : List Char) : Nat → List Char → List Char
  | _, [] => []
  | skip + 1, _ :: rest => replaceGo pat rep skip rest
  | 0, c :: rest =>
    if pat ≠ [] ∧ (c :: rest).take pat.length = pat then
      rep ++ replaceGo pat rep (pat.length - 1) rest
    else
      c :: replaceGo pat rep 0 rest

/-- Python `s.replace(pat, rep)`. -/
def pyReplace (s pat rep : String) : String :=
  ⟨replaceGo pat.data rep.data 0 s.data⟩

/-- Python `s.strip()`: remove leading and trailing whitespace. -/
def pyStrip (s : String) : String :=
  ⟨((s.data.dropWhile Char.isWhitespace).reverse.dropWhile
      Char.isWhitespace).reverse⟩

/-- The fence stripping applied to the raw reply (`src/app.py` 447-448):
`strip`, remove every occurrence of the fence markers, `strip` again. -/
def stripFences (s : String) : String :=
  pyStrip (pyReplace (pyReplace (pyStrip s) "```json" "") "```" "")

/-- Observable events of one document's pass through the loop. -/
inductive Event where
  | attemptCall : Event
  | retryWarn : Event
  | sleep (secs : Nat) : Event
  | terminalParseError (raw : String) : Event
  | genericError : Event
  deriving Repr, DecidableEq

/-- Result of the body of one retry attempt. -/
inductive AttemptOut where
  | success (records : List PyDict) : AttemptOut
  | parseFail (cleaned : String) : AttemptOut
  | otherFail : AttemptOut

/-- The body of one attempt of the retry loop (`src/app.py` 364-477):
call the oracle, strip fences, parse, tag records with `source_file`,
then either bind images (`match_images_to_questions`) or pop the
transient fields directly.  `parseFail` is exactly `json.JSONDecodeError`;
every other exception (transport error, `TypeError` from tagging or from
the bounds comparison) lands in the generic handler. -/
def attemptOnce (env : PipeEnv) (name : String) (images : List ImageInfo)
    (attempt : Nat) : AttemptOut :=
  match env.oracle name attempt with
  | OracleCall.transportError _ => AttemptOut.otherFail
  | OracleCall.reply raw =>
    let cleaned := stripFences raw
    match env.parse cleaned with
    | none => AttemptOut.parseFail cleaned
    | some parsed =>
      match normalizeReply parsed name with
      | Except.error _ => AttemptOut.otherFail
      | Except.ok fileQuestions =>
        if images.isEmpty then
          AttemptOut.success (fileQuestions.map cleanupFields)
        else
          match match_images_to_questions env.upload images fileQuestions with
          | Except.error _ => AttemptOut.otherFail
          | Except.ok finalQs => AttemptOut.success finalQs

/-- `max_retries` (`src/app.py` 361). -/
def max_retries : Nat := 3

/-- `retry_delay` (`src/app.py` 362). -/
def retry_delay : Nat := 5

/-- The retry loop `for attempt in range(max_retries)` with `fuel`
attempts remaining, current attempt index `attempt`.  On a parse
failure with more attempts left: warn, sleep `retry_delay`, retry; on
the last attempt: surface the terminal error with the unparsed text.
On success or on any other exception the loop breaks immediately. -/
def retryLoop (env : PipeEnv) (name : String) (images : List ImageInfo) :
    Nat → Nat → List Event × Option (List PyDict)
  | 0, _ => ([], none)
  | fuel + 1, attempt =>
    match attemptOnce env name images attempt with
    | AttemptOut.success qs => ([Event.attemptCall], some qs)
    | AttemptOut.otherFail =>
      ([Event.attemptCall, Event.genericError], none)
    | AttemptOut.parseFail cleaned =>
      if fuel = 0 then
        ([Event.attemptCall, Event.terminalParseError cleaned], none)
      else
        let rest := retryLoop env name images fuel (attempt + 1)
        (Event.attemptCall :: Event.retryWarn :: Event.sleep retry_delay ::
          rest.1, rest.2)

/-- One document's pass through the oracle/normalize/bind stage of the
main upload loop. -/
def processDoc (env : PipeEnv) (name : String) (images : List ImageInfo) :
    List Event × Option (List PyDict) :=
  retryLoop env name images max_retries 0

/-! ## File extraction (`process_file_with_enhanced_extraction`,
`src/app.py` 222-272) -/

/-- The declared media type of an uploaded file (`uploaded_file.type`). -/
inductive MediaType where
  | pdf : MediaType
  | docx : MediaType
  | txt : MediaType
  | other (mime : String) : MediaType
  deriving Repr, DecidableEq

/-- An uploaded file: display name, declared media type, raw bytes
(abstracted as a string). -/
structure Doc where
  name : String
  media : MediaType
  contents : String

/-- Filesystem events of the extractor's temp-file lifecycle.
`NamedTemporaryFile(delete=False)` creates the file; only an explicit
`os.unlink` removes it. -/
inductive FsEvent where
  | createTemp (n : String) : FsEvent
  | unlink (n : String) : FsEvent
  deriving Repr, DecidableEq

/-- The external readers the extractor calls.  `pdfText` models
`PyPDF2.PdfReader` plus the page loop (raises on a corrupt file);
`docxText` models `docx2txt.process`; `decodeTxt` models UTF-8
decoding of the raw bytes.  The two image extractors catch all their
own exceptions and return a (possibly empty) list, so they are total. -/
structure ExtractEnv where
  pdfText : String → Except PyErr String
  pdfImages : String → List ImageInfo
  docxText : String → Except PyErr String
  docxImages : String → List ImageInfo
  decodeTxt : String → Except PyErr String

/-- `process_file_with_enhanced_extraction`: per media type, write a
temp file, read text, extract images, and `os.unlink` the temp file —
but the `unlink` is only reached on the success path, because an
exception from the reader jumps straight to the outer handler, which
returns `(None, None)`.  The temp file is named after the document for
the model.  Unsupported media types return `(None, None)` without
touching the filesystem and without raising. -/
def process_file_with_enhanced_extraction (env : ExtractEnv) (d : Doc) :
    Option (String × List ImageInfo) × List FsEvent :=
  match d.media with
  | MediaType.pdf =>
    match env.pdfText d.contents with
    | Except.error _ => (none, [FsEvent.createTemp d.name])
    | Except.ok text =>
      (some (text, env.pdfImages d.contents),
       [FsEvent.createTemp d.name, FsEvent.unlink d.name])
  | MediaType.docx =>
    match env.docxText d.contents with
    | Except.error _ => (none, [FsEvent.createTemp d.name])
    | Except.ok text =>
      (some (text, env.docxImages d.contents),
       [FsEvent.createTemp d.name, FsEvent.unlink d.name])
  | MediaType.txt =>
    match env.decodeTxt d.contents with
    | Except.error _ => (none, [])
    | Except.ok text => (some (text, []), [])
  | MediaType.other _ => (none, [])

/-! ## The batch loop over uploaded files (`src/app.py` 331-493) -/

/-- The batch loop: each uploaded file is extracted and pushed through
the oracle/normalize/bind stage; its records are appended to
`data_list`.  A failed extraction (`text_content is None`) sets
`any_errors` and `continue`s; a per-document terminal failure in the
retry stage sets `any_errors`; in both cases the remaining documents
are still processed.  Returns the accumulated records and the
`any_errors` flag. -/
def processBatch (ex : ExtractEnv) (env : PipeEnv) :
    List Doc → List PyDict × Bool
  | [] => ([], false)
  | d :: ds =>
    let extracted := (process_file_with_enhanced_extraction ex d).1
    let step : List PyDict × Bool :=
      match extracted with
      | none => ([], true)
      | some (_, images) =>
        match (processDoc env d.name images).2 with
        | some qs => (qs, false)
        | none => ([], true)
    let rest := processBatch ex env ds
    (step.1 ++ rest.1, step.2 || rest.2)

/-! ## PDF image extraction (`extract_images_from_pdf_advanced`,
`src/app.py` 92-142) -/

/-- One entry of `page.get_images(full=True)`: an xref (abstracting the
image payload) and whether `doc.extract_image` / `PIL.Image.open`
succeed on it. -/
structure PdfImgEntry where
  xref : Nat
  decodes : Bool
  deriving Repr, DecidableEq

/-- The `image_info` record kept for a successfully decoded image:
1-based page number, the entry's native index within its page, and the
payload. -/
structure PdfImageInfo where
  page : Nat
  index : Nat
  xref : Nat
  deriving Repr, DecidableEq

/-- The inner loop of `extract_images_from_pdf_advanced` over one
page's image list: `img_index` counts every entry (it comes from
`enumerate`), a failing decode is warned about and skipped
(`continue`), a successful one is appended. -/
def extractPageImages (pageNum : Nat) : Nat → List PdfImgEntry →
    List PdfImageInfo
  | _, [] => []
  | i, e :: rest =>
    if e.decodes then
      ⟨pageNum + 1, i, e.xref⟩ :: extractPageImages pageNum (i + 1) rest
    else
      extractPageImages pageNum (i + 1) rest

/-- The page loop of `extract_images_from_pdf_advanced`, pages given as
their image lists in document order, starting at page index `p`. -/
def extractPdfPages : Nat → List (List PdfImgEntry) → List PdfImageInfo
  | _, [] => []
  | p, pg :: rest => extractPageImages p 0 pg ++ extractPdfPages (p + 1) rest

/-- `extract_images_from_pdf_advanced(pdf_path)`, the document given as
its per-page image-entry lists. -/
def extract_images_from_pdf_advanced (pages : List (List PdfImgEntry)) :
    List PdfImageInfo :=
  extractPdfPages 0 pages

/-- The document-native sequence of image entries, with page index and
in-page index, in appearance order (the reference the extractor's
output is compared against). -/
def nativeEntries (pages : List (List PdfImgEntry)) :
    List (Nat × Nat × PdfImgEntry) :=
  (pages.enum.map (fun pe => pe.2.enum.map (fun ie => (pe.1, ie.1, ie.2)))).flatten

/-- The record the extractor keeps for a native entry. -/
def mkPdfInfo (t : Nat × Nat × PdfImgEntry) : PdfImageInfo :=
  ⟨t.1 + 1, t.2.1, t.2.2.xref⟩

/-! ## Persistence upsert (`src/app.py` 522-537)

The upload handler performs, per record,
`supabase.table("mcqQuestions").upsert(record, on_conflict="questionStem")`.
The store itself is not part of the repository. -/

/-- The stem text of a record: the `questionStem` column value, when it
is a string (the conflict column is text). -/
def stemKey (r : PyDict) : Option String :=
  match dictGet? r "questionStem" with
  | some (Json.str s) => some s
  | _ => none

/-- Whether two records collide on the conflict key: both carry a stem
text and the texts are equal (a missing stem, like SQL `NULL`, never
conflicts). -/
def stemMatches (row r : PyDict) : Bool :=
  match stemKey row, stemKey r with
  | some a, some b => a = b
  | _, _ => false

/-- Modelled from the spec: the relational store's upsert, which the
repository only invokes through the Supabase client with
`on_conflict="questionStem"` — "a record whose stem matches an existing
row replaces it; otherwise it inserts a new row" (§4.5). -/
def upsertRow : List PyDict → PyDict → List PyDict
  | [], r => [r]
  | row :: rest, r =>
    if stemMatches row r then
      r :: rest
    else
      row :: upsertRow rest r

/-- The upload loop (`src/app.py` 522-537): one upsert call per record
of `data_list`, in order, against the store state `t`. -/
def uploadAll (t : List PyDict) (records : List PyDict) : List PyDict :=
  records.foldl upsertRow t

/-- Number of rows of the store whose stem text is `s`. -/
def stemCount (s : String) (t : List PyDict) : Nat :=
  t.countP (fun row => stemKey row = some s)

/-- The rows of the store whose stem text is `s`. -/
def stemRows (s : String) (t : List PyDict) : List PyDict :=
  t.filter (fun row => stemKey row = some s)

/-! ## Concrete environments used by the witnesses -/

/-- A concrete extraction environment whose readers all succeed. -/
def exEnvC : ExtractEnv :=
  ⟨fun _ => Except.ok "text", fun _ => [], fun _ => Except.ok "",
   fun _ => [], fun _ => Except.ok ""⟩

/-- A concrete uploaded PDF document. -/
def docC : Doc := ⟨"doc.pdf", MediaType.pdf, "raw"⟩

/-- A concrete pipeline environment whose oracle always replies with
text that never parses. -/
def pipeFailParse : PipeEnv :=
  ⟨fun _ _ => OracleCall.reply "oops", fun _ => none, fun _ _ _ => none⟩

/-- A concrete pipeline environment whose oracle reply parses into a
single-question mapping. -/
def pipeOneRecord : PipeEnv :=
  ⟨fun _ _ => OracleCall.reply "r",
   fun _ => some (Json.obj [("0", Json.obj
     [("hasImage", Json.bool false), ("questionStem", Json.str "s")])]),
   fun _ _ _ => none⟩

/-- A concrete pipeline environment whose oracle call always raises a
transport error. -/
def pipeTransportFail : PipeEnv :=
  ⟨fun _ _ => OracleCall.transportError "boom", fun _ => none,
   fun _ _ _ => none⟩

/-! ## Helper lemmas -/

lemma mapM_setSourceFile (fileName : String) :
    ∀ kvs : List (String × Json), (∀ kv ∈ kvs, isJsonObj kv.2 = true) →
      kvs.mapM (fun kv => setSourceFile kv.2 fileName)
        = Except.ok (kvs.map (fun kv => tagSource fileName kv.2)) := by
  intro kvs
  induction kvs with
  | nil => intro _; rfl
  | cons kv rest ih =>
    intro h
    have h1 : isJsonObj kv.2 = true := h kv (List.mem_cons_self kv rest)
    obtain ⟨d, hd⟩ : ∃ d, kv.2 = Json.obj d := by
      cases hkv : kv.2 <;> simp [isJsonObj, hkv] at h1 ⊢
    have h2 := ih (fun x hx => h x (List.mem_cons_of_mem kv hx))
    rw [List.mapM_cons, h2]
    simp [setSourceFile, tagSource, hd]
    rfl

lemma processBatch_extract_failed (ex : ExtractEnv) (env : PipeEnv)
    (d : Doc) (ds : List Doc)
    (h : (process_file_with_enhanced_extraction ex d).1 = none) :
    processBatch ex env (d :: ds) = ((processBatch ex env ds).1, true) := by
  simp [processBatch, h]

lemma processBatch_doc_failed (ex : ExtractEnv) (env : PipeEnv)
    (d : Doc) (ds : List Doc) (text : String) (images : List ImageInfo)
    (hex : (process_file_with_enhanced_extraction ex d).1 = some (text, images))
    (hdoc : (processDoc env d.name images).2 = none) :
    processBatch ex env (d :: ds) = ((processBatch ex env ds).1, true) := by
  simp [processBatch, hex, hdoc]

/-! ## Claim C1 -/

/-- Claim C1, counterexample.  The claim says a reply whose top-level
JSON value is a single non-mapping value is treated as exactly one
record.  In the code, the tagging `parsed_data['source_file'] = file_name`
is executed on that non-dict value and raises `TypeError` (caught by the
generic handler, abandoning the document): for the top-level JSON array
`[]` the normalizer yields an error and no record at all. -/
theorem C1_counterexample :
    normalizeReply (Json.arr []) "reply.txt" = Except.error PyErr.typeError :=
  rfl

/-- Claim C1, amended.  If the reply's top-level value is a mapping all
of whose values are themselves mappings, the normalizer produces one
tagged record per key/value pair, in insertion order, so the record
count equals the mapping's key count.  If the top-level value is not a
mapping, the `source_file` tagging raises `TypeError` and no record is
produced (the document is abandoned by the generic handler). -/
theorem C1_mapping_reply_normalization :
    (∀ (kvs : List (String × Json)) (fileName : String),
        (∀ kv ∈ kvs, isJsonObj kv.2 = true) →
        normalizeReply (Json.obj kvs) fileName
            = Except.ok (kvs.map (fun kv => tagSource fileName kv.2))
          ∧ (kvs.map (fun kv => tagSource fileName kv.2)).length = kvs.length)
    ∧ (∀ (j : Json) (fileName : String), isJsonObj j = false →
        normalizeReply j fileName = Except.error PyErr.typeError) := by
  constructor
  · intro kvs fileName h
    refine ⟨?_, List.length_map _ _⟩
    simpa [normalizeReply] using mapM_setSourceFile fileName kvs h
  · intro j fileName h
    cases j <;> simp_all [isJsonObj] <;> rfl

/-- Claim C1, witness: a two-key mapping reply yields exactly two
records, in key order. -/
theorem C1_witness :
    normalizeReply
        (Json.obj [("0", Json.obj [("questionStem", Json.str "a")]),
                   ("1", Json.obj [("questionStem", Json.str "b")])]) "f.pdf"
      = Except.ok
          ([("0", Json.obj [("questionStem", Json.str "a")]),
            ("1", Json.obj [("questionStem", Json.str "b")])].map
            (fun kv => tagSource "f.pdf" kv.2))
    ∧ ([("0", Json.obj [("questionStem", Json.str "a")]),
        ("1", Json.obj [("questionStem", Json.str "b")])].map
          (fun kv => tagSource "f.pdf" kv.2)).length
      = [("0", Json.obj [("questionStem", Json.str "a")]),
         ("1", Json.obj [("questionStem", Json.str "b")])].length :=
  C1_mapping_reply_normalization.1 _ "f.pdf" (by intro kv hkv; fin_cases hkv <;> rfl)

/-! ## Claim C4 -/

/-- Claim C4 is violated by the code: the temp file is NOT deleted on
the exception path.  `NamedTemporaryFile(delete=False)` creates the
file and `os.unlink` is only reached at the end of the success path;
when reading or parsing the container raises (here: a corrupt PDF whose
`PyPDF2.PdfReader` call fails), control jumps to the outer handler and
the function returns with the temp file still on disk: the event trace
contains the creation but no `unlink`. -/
theorem C4_temp_file_leak :
    process_file_with_enhanced_extraction
        ⟨fun _ => Except.error PyErr.ioError, fun _ => [],
         fun _ => Except.ok "", fun _ => [], fun _ => Except.ok ""⟩
        ⟨"corrupt.pdf", MediaType.pdf, "not-a-pdf"⟩
      = (none, [FsEvent.createTemp "corrupt.pdf"])
    ∧ FsEvent.unlink "corrupt.pdf" ∉ [FsEvent.createTemp "corrupt.pdf"] := by
  exact ⟨rfl, by decide⟩

/-! ## Claim C8 -/

/-- Claim C8: an uploaded file whose declared media type is not PDF,
DOCX, or plain text makes extraction return the typed failure
`(None, None)` (no exception, no filesystem activity), and the batch
loop records the error and continues with the remaining documents,
whose records are unaffected. -/
theorem C8_unsupported_media_type :
    ∀ (ex : ExtractEnv) (env : PipeEnv) (d : Doc) (m : String)
      (ds : List Doc), d.media = MediaType.other m →
      process_file_with_enhanced_extraction ex d = (none, [])
      ∧ processBatch ex env (d :: ds) = ((processBatch ex env ds).1, true) := by
  intro ex env d m ds hm
  refine ⟨by simp [process_file_with_enhanced_extraction, hm], ?_⟩
  exact processBatch_extract_failed ex env d ds
    (by simp [process_file_with_enhanced_extraction, hm])

/-- Claim C8, witness: a zip upload is skipped and the batch finishes
with an empty record list and the error flag set. -/
theorem C8_witness :
    process_file_with_enhanced_extraction
        ⟨fun _ => Except.ok "", fun _ => [], fun _ => Except.ok "",
         fun _ => [], fun _ => Except.ok ""⟩
        ⟨"a.zip", MediaType.other "application/zip", "PK"⟩
      = (none, [])
    ∧ processBatch
        ⟨fun _ => Except.ok "", fun _ => [], fun _ => Except.ok "",
         fun _ => [], fun _ => Except.ok ""⟩
        ⟨fun _ _ => OracleCall.reply "", fun _ => none, fun _ _ _ => none⟩
        [⟨"a.zip", MediaType.other "application/zip", "PK"⟩]
      = ((processBatch
            ⟨fun _ => Except.ok "", fun _ => [], fun _ => Except.ok "",
             fun _ => [], fun _ => Except.ok ""⟩
            ⟨fun _ _ => OracleCall.reply "", fun _ => none, fun _ _ _ => none⟩
            []).1, true) :=
  C8_unsupported_media_type _ _ _ "application/zip" [] rfl

/-! ## Claim C10 -/

lemma extractPageImages_eq (p : Nat) :
    ∀ (es : List PdfImgEntry) (i : Nat),
      extractPageImages p i es
        = ((es.enumFrom i).filter (fun ie => ie.2.decodes)).map
            (fun ie => ⟨p + 1, ie.1, ie.2.xref⟩) := by
  intro es
  induction es with
  | nil => intro i; rfl
  | cons e rest ih =>
    intro i
    by_cases hd : e.decodes <;>
      simp [extractPageImages, List.enumFrom_cons, hd, ih (i + 1), mkPdfInfo]

lemma extractPdfPages_eq :
    ∀ (pages : List (List PdfImgEntry)) (p : Nat),
      extractPdfPages p pages
        = ((((pages.enumFrom p).map
              (fun pe => pe.2.enum.map (fun ie => (pe.1, ie.1, ie.2)))).flatten).filter
            (fun t => t.2.2.decodes)).map mkPdfInfo := by
  intro pages
  induction pages with
  | nil => intro p; rfl
  | cons pg rest ih =>
    intro p
    simp only [extractPdfPages, List.enumFrom_cons, List.map_cons,
      List.flatten_cons, List.filter_append, List.map_append, ih (p + 1)]
    congr 1
    rw [extractPageImages_eq p pg 0]
    rw [List.filter_map, List.map_map]
    rfl

/-- Claim C10: the PDF extractor returns exactly the decodable entries
of the document-native image sequence, in native order — a failing
decode is omitted (its `continue` skips only the append) and extraction
of later images goes on, so the returned sequence is the native one
filtered, and every image after an omitted one sits at a smaller
returned position than its native position.  The record count equals
the number of decodable entries. -/
theorem C10_failed_decode_shifts_positions :
    ∀ pages : List (List PdfImgEntry),
      extract_images_from_pdf_advanced pages
          = ((nativeEntries pages).filter (fun t => t.2.2.decodes)).map mkPdfInfo
        ∧ (extract_images_from_pdf_advanced pages).length
          = (nativeEntries pages).countP (fun t => t.2.2.decodes) := by
  intro pages
  have h := extractPdfPages_eq pages 0
  have hmain : extract_images_from_pdf_advanced pages
      = ((nativeEntries pages).filter (fun t => t.2.2.decodes)).map mkPdfInfo := by
    simpa [extract_images_from_pdf_advanced, nativeEntries, List.enum] using h
  refine ⟨hmain, ?_⟩
  rw [hmain, List.length_map, List.countP_eq_length_filter]

/-! ## Claim C2 -/

/-- Claim C2, counterexample.  `imagePosition = -1` is not a valid index
into the one-element extracted-image sequence, so the claim says the
record must be passed through with no `image` field.  The code's bounds
check `image_position < len(extracted_images)` accepts `-1`, and
`extracted_images[-1]` resolves by Python negative indexing to the last
image, so the record comes out with an `image` field bound (the upload
here succeeds and returns a URL). -/
theorem C2_counterexample :
    bindQuestion (fun _ _ _ => some "https://bucket/img.png")
        [⟨"payload", "p1.png"⟩] 0
        [("hasImage", Json.bool true), ("imagePosition", Json.num (-1)),
         ("questionStem", Json.str "s")]
      = Except.ok [("questionStem", Json.str "s"),
                   ("image", Json.str "https://bucket/img.png")] :=
  rfl

/-- Claim C2, amended.  For an integer `imagePosition` `p` that is
invalid even under Python indexing semantics — `p ≥ len(images)` (the
claim's "in particular" case) or `p < -len(images)` (where the indexing
raises `IndexError`, caught by the per-question handler) — the record
is passed through unmodified except for the transient-field clean-up,
with no `image` field set and no exception raised.  Negative integers
in `[-len(images), -1]` instead bind an image by Python negative
indexing, and a non-numeric `imagePosition` raises `TypeError` out of
the binder. -/
theorem C2_out_of_bounds_passthrough :
    ∀ (upl : String → String → Nat → Option String) (images : List ImageInfo)
      (i : Nat) (q : PyDict) (p : Int),
      dictGet? q "imagePosition" = some (Json.num p) →
      ((images.length : Int) ≤ p ∨ p + images.length < 0) →
      bindQuestion upl images i q = Except.ok (cleanupFields q) := by
  intro upl images i q p hpos hrange
  have himagePos : dictGetD q "imagePosition" (Json.num (Int.ofNat i))
      = Json.num p := by simp [dictGetD, hpos]
  simp only [bindQuestion]
  rw [himagePos]
  cases htr : truthy (dictGetD q "hasImage" (Json.bool false)) with
  | false => rfl
  | true =>
    simp only [if_true, pyLtInt]
    rcases hrange with h1 | h2
    · have hlt : decide (p < (images.length : Int)) = false := by
        simp only [decide_eq_false_iff_not, not_lt]
        exact_mod_cast h1
      simp [hlt]
    · have hlen : (0 : Int) ≤ (images.length : Int) := by positivity
      have hlt : decide (p < (images.length : Int)) = true := by
        simp only [decide_eq_true_eq]
        omega
      have hpneg : p < 0 := by omega
      have hj : ¬ ((0:Int) ≤ p + (images.length : Int) ∧
          (p + (images.length : Int)).toNat < images.length) := by
        intro hcon
        omega
      simp [hlt, pyToIndex, pyIndex, hpneg, hj]

/-- Claim C2, witness: `imagePosition = 5` against one extracted image
passes the record through with only the transient fields removed. -/
theorem C2_witness :
    bindQuestion (fun _ _ _ => some "https://bucket/img.png")
        [⟨"payload", "p1.png"⟩] 0
        [("hasImage", Json.bool true), ("imagePosition", Json.num 5),
         ("questionStem", Json.str "s")]
      = Except.ok [("questionStem", Json.str "s")] :=
  C2_out_of_bounds_passthrough _ [⟨"payload", "p1.png"⟩] 0 _ 5 rfl
    (Or.inl (by norm_num))

/-! ## Claim C9 -/

/-- Claim C9: a record whose `hasImage` flag is truthy but whose
`imagePosition` key is absent falls back to
`question.get('imagePosition', i)` — the record's own zero-based
position in the record list — so when that position is in bounds and
the upload succeeds, the image at that index is bound rather than
binding being skipped. -/
theorem C9_default_position :
    ∀ (upl : String → String → Nat → Option String) (images : List ImageInfo)
      (i : Nat) (q : PyDict) (url : String) (hi : i < images.length),
      dictGet? q "imagePosition" = none →
      truthy (dictGetD q "hasImage" (Json.bool false)) = true →
      upl (images.get ⟨i, hi⟩).data (images.get ⟨i, hi⟩).filename i = some url →
      bindQuestion upl images i q
        = Except.ok (cleanupFields (dictSet q "image" (Json.str url))) := by
  intro upl images i q url hi hpos htr hupl
  have himagePos : dictGetD q "imagePosition" (Json.num (Int.ofNat i))
      = Json.num (Int.ofNat i) := by simp [dictGetD, hpos]
  simp only [bindQuestion]
  rw [himagePos]
  have hnneg : ¬ ((i : Int) < 0) := by omega
  simp only [List.get_eq_getElem] at hupl
  simp [htr, pyLtInt, pyToIndex, pyIndex, hnneg, hi, hupl]

/-! ## Claim C3 -/

/-- Claim C3: when every oracle reply for a document fails JSON
parsing, exactly 3 oracle attempts occur, with a fixed
`retry_delay = 5` sleep between consecutive attempts (and none after
the last); after the third failure a terminal error carrying the
unparsed (fence-stripped) reply text is surfaced, the document yields
no records, and the batch continues: the remaining documents' records
are exactly those of the batch without this document, with the error
flag set. -/
theorem C3_parse_failure_retry :
    ∀ (ex : ExtractEnv) (env : PipeEnv) (d : Doc) (ds : List Doc)
      (text : String) (images : List ImageInfo) (r0 r1 r2 : String),
      (process_file_with_enhanced_extraction ex d).1 = some (text, images) →
      env.oracle d.name 0 = OracleCall.reply r0 →
      env.parse (stripFences r0) = none →
      env.oracle d.name 1 = OracleCall.reply r1 →
      env.parse (stripFences r1) = none →
      env.oracle d.name 2 = OracleCall.reply r2 →
      env.parse (stripFences r2) = none →
      processDoc env d.name images
        = ([Event.attemptCall, Event.retryWarn, Event.sleep retry_delay,
            Event.attemptCall, Event.retryWarn, Event.sleep retry_delay,
            Event.attemptCall, Event.terminalParseError (stripFences r2)], none)
      ∧ processBatch ex env (d :: ds) = ((processBatch ex env ds).1, true) := by
  intro ex env d ds text images r0 r1 r2 hex h0 hp0 h1 hp1 h2 hp2
  have hA0 : attemptOnce env d.name images 0
      = AttemptOut.parseFail (stripFences r0) := by
    simp [attemptOnce, h0, hp0]
  have hA1 : attemptOnce env d.name images 1
      = AttemptOut.parseFail (stripFences r1) := by
    simp [attemptOnce, h1, hp1]
  have hA2 : attemptOnce env d.name images 2
      = AttemptOut.parseFail (stripFences r2) := by
    simp [attemptOnce, h2, hp2]
  have hloop : processDoc env d.name images
      = ([Event.attemptCall, Event.retryWarn, Event.sleep retry_delay,
          Event.attemptCall, Event.retryWarn, Event.sleep retry_delay,
          Event.attemptCall, Event.terminalParseError (stripFences r2)], none) := by
    simp [processDoc, max_retries, retryLoop, hA0, hA1, hA2]
  exact ⟨hloop,
    processBatch_doc_failed ex env d ds text images hex (by rw [hloop])⟩

/-- Claim C3, witness: an oracle that always replies `"oops"` under a
parser that always fails produces exactly the three-attempt trace with
two sleeps, and the batch of just this document ends with no records
and the error flag set. -/
theorem C3_witness :
    processDoc pipeFailParse "doc.pdf" []
      = ([Event.attemptCall, Event.retryWarn, Event.sleep retry_delay,
          Event.attemptCall, Event.retryWarn, Event.sleep retry_delay,
          Event.attemptCall, Event.terminalParseError (stripFences "oops")],
         none)
    ∧ processBatch exEnvC pipeFailParse [docC]
      = ((processBatch exEnvC pipeFailParse []).1, true) :=
  C3_parse_failure_retry exEnvC pipeFailParse docC [] "text" []
    "oops" "oops" "oops" rfl rfl rfl rfl rfl rfl rfl

/-! ## Claim C6 -/

/-- Claim C6: a failure during an oracle attempt other than a JSON
parse failure (here a transport error on the very first attempt) lands
in the generic handler, which reports the error and `break`s: exactly
one attempt occurs, there is no backoff sleep and no further attempt,
the document yields no records, and the batch continues with the
remaining documents, error flag set. -/
theorem C6_transport_error_no_retry :
    ∀ (ex : ExtractEnv) (env : PipeEnv) (d : Doc) (ds : List Doc)
      (text : String) (images : List ImageInfo) (msg : String),
      (process_file_with_enhanced_extraction ex d).1 = some (text, images) →
      env.oracle d.name 0 = OracleCall.transportError msg →
      processDoc env d.name images
        = ([Event.attemptCall, Event.genericError], none)
      ∧ processBatch ex env (d :: ds) = ((processBatch ex env ds).1, true) := by
  intro ex env d ds text images msg hex h0
  have hA0 : attemptOnce env d.name images 0 = AttemptOut.otherFail := by
    simp [attemptOnce, h0]
  have hloop : processDoc env d.name images
      = ([Event.attemptCall, Event.genericError], none) := by
    simp [processDoc, max_retries, retryLoop, hA0]
  exact ⟨hloop,
    processBatch_doc_failed ex env d ds text images hex (by rw [hloop])⟩

/-- Claim C6, witness: a transport-failing oracle gives the one-attempt
trace with no sleep, and the single-document batch ends with no records
and the error flag set. -/
theorem C6_witness :
    processDoc pipeTransportFail "doc.pdf" []
      = ([Event.attemptCall, Event.genericError], none)
    ∧ processBatch exEnvC pipeTransportFail [docC]
      = ((processBatch exEnvC pipeTransportFail []).1, true) :=
  C6_transport_error_no_retry exEnvC pipeTransportFail docC [] "text" []
    "boom" rfl rfl

/-! ## Claim C5 -/

lemma dictGet_pop_self (d : PyDict) (k : String) :
    dictGet? (dictPop d k) k = none := by
  simp only [dictGet?, dictPop, Option.map_eq_none', List.find?_eq_none]
  intro x hx
  have h2 := (List.mem_filter.mp hx).2
  simpa using h2

lemma dictGet_pop_none (d : PyDict) (k k' : String)
    (h : dictGet? d k = none) : dictGet? (dictPop d k') k = none := by
  simp only [dictGet?, dictPop, Option.map_eq_none', List.find?_eq_none] at h ⊢
  intro x hx
  exact h x (List.mem_filter.mp hx).1

lemma cleanupFields_strips (q : PyDict) :
    dictGet? (cleanupFields q) "hasImage" = none
    ∧ dictGet? (cleanupFields q) "imagePosition" = none
    ∧ dictGet? (cleanupFields q) "source_file" = none := by
  refine ⟨?_, ?_, ?_⟩
  · exact dictGet_pop_none _ _ _ (dictGet_pop_none _ _ _ (dictGet_pop_self _ _))
  · exact dictGet_pop_none _ _ _ (dictGet_pop_self _ _)
  · exact dictGet_pop_self _ _

lemma bindQuestion_ok_shape (upl : String → String → Nat → Option String)
    (images : List ImageInfo) (i : Nat) (q : PyDict) (r : PyDict)
    (h : bindQuestion upl images i q = Except.ok r) :
    ∃ q1, r = cleanupFields q1 := by
  simp only [bindQuestion] at h
  by_cases htr : truthy (dictGetD q "hasImage" (Json.bool false)) = true
  · rw [if_pos htr] at h
    cases hp : pyLtInt (dictGetD q "imagePosition" (Json.num (Int.ofNat i)))
        (Int.ofNat images.length) with
    | error e => rw [hp] at h; simp [Bind.bind, Except.bind] at h
    | ok c =>
      rw [hp] at h
      simp only [Bind.bind, Except.bind, pure, Except.pure,
        Except.ok.injEq] at h
      exact ⟨_, h.symm⟩
  · rw [if_neg htr] at h
    simp only [Bind.bind, Except.bind, pure, Except.pure,
      Except.ok.injEq] at h
    exact ⟨_, h.symm⟩

lemma matchLoop_ok_shape (upl : String → String → Nat → Option String)
    (images : List ImageInfo) :
    ∀ (qs : List PyDict) (i : Nat) (rs : List PyDict),
      matchLoop upl images i qs = Except.ok rs →
      ∀ r ∈ rs, ∃ q1, r = cleanupFields q1 := by
  intro qs
  induction qs with
  | nil =>
    intro i rs h r hr
    simp only [matchLoop, Except.ok.injEq] at h
    subst h
    simp at hr
  | cons q rest ih =>
    intro i rs h r hr
    simp only [matchLoop] at h
    cases hb : bindQuestion upl images i q with
    | error e => rw [hb] at h; simp [Bind.bind, Except.bind] at h
    | ok q1 =>
      rw [hb] at h
      cases hm : matchLoop upl images (i + 1) rest with
      | error e =>
        rw [hm] at h
        simp [Bind.bind, Except.bind, Functor.map, Except.map] at h
      | ok rest1 =>
        rw [hm] at h
        simp only [Bind.bind, Except.bind, Functor.map, Except.map, pure,
          Except.pure, Except.ok.injEq] at h
        subst h
        rcases List.mem_cons.mp hr with rfl | hr2
        · exact bindQuestion_ok_shape upl images i q r hb
        · exact ih (i + 1) rest1 hm r hr2

lemma attemptOnce_success_shape (env : PipeEnv) (name : String)
    (images : List ImageInfo) (a : Nat) (qs : List PyDict)
    (h : attemptOnce env name images a = AttemptOut.success qs) :
    ∀ q ∈ qs, ∃ q1, q = cleanupFields q1 := by
  intro q hq
  cases ho : env.oracle name a with
  | transportError m => simp [attemptOnce, ho] at h
  | reply raw =>
    cases hp : env.parse (stripFences raw) with
    | none => simp [attemptOnce, ho, hp] at h
    | some parsed =>
      cases hn : normalizeReply parsed name with
      | error e => simp [attemptOnce, ho, hp, hn] at h
      | ok fq =>
        by_cases hempty : images.isEmpty = true
        · simp only [attemptOnce, ho, hp, hn, if_pos hempty,
            AttemptOut.success.injEq] at h
          subst h
          obtain ⟨q1, _, rfl⟩ := List.mem_map.mp hq
          exact ⟨q1, rfl⟩
        · cases hm : match_images_to_questions env.upload images fq with
          | error e => simp [attemptOnce, ho, hp, hn, hempty, hm] at h
          | ok finalQs =>
            simp only [attemptOnce, ho, hp, hn, if_neg hempty, hm,
              AttemptOut.success.injEq] at h
            subst h
            exact matchLoop_ok_shape env.upload images fq 0 _ hm q hq

lemma retryLoop_success_shape (env : PipeEnv) (name : String)
    (images : List ImageInfo) :
    ∀ (fuel attempt : Nat) (evs : List Event) (qs : List PyDict),
      retryLoop env name images fuel attempt = (evs, some qs) →
      ∀ q ∈ qs, ∃ q1, q = cleanupFields q1 := by
  intro fuel
  induction fuel with
  | zero => intro attempt evs qs h; simp [retryLoop] at h
  | succ fuel ih =>
    intro attempt evs qs h
    cases ha : attemptOnce env name images attempt with
    | success qs1 =>
      simp only [retryLoop, ha, Prod.mk.injEq, Option.some.injEq] at h
      rw [← h.2]
      exact attemptOnce_success_shape env name images attempt qs1 ha
    | otherFail => simp [retryLoop, ha] at h
    | parseFail c =>
      by_cases hf : fuel = 0
      · simp [retryLoop, ha, hf] at h
      · simp only [retryLoop, ha, if_neg hf, Prod.mk.injEq] at h
        have h2 : (retryLoop env name images fuel (attempt + 1)).2 = some qs :=
          h.2
        have h3 : retryLoop env name images fuel (attempt + 1)
            = ((retryLoop env name images fuel (attempt + 1)).1, some qs) := by
          rw [← h2]
        exact ih (attempt + 1) _ qs h3

/-- Claim C5: every record that ends up in the accumulated batch result
`data_list` — whether it went through `match_images_to_questions` or
through the no-image clean-up loop, and regardless of the image-match
outcome — has the transient fields `hasImage`, `imagePosition` and
`source_file` absent when it is handed to persistence. -/
theorem C5_transients_stripped :
    ∀ (ex : ExtractEnv) (env : PipeEnv) (ds : List Doc) (q : PyDict),
      q ∈ (processBatch ex env ds).1 →
      dictGet? q "hasImage" = none
      ∧ dictGet? q "imagePosition" = none
      ∧ dictGet? q "source_file" = none := by
  intro ex env ds
  induction ds with
  | nil => intro q hq; simp [processBatch] at hq
  | cons d rest ih =>
    intro q hq
    simp only [processBatch] at hq
    rcases List.mem_append.mp hq with hq1 | hq2
    · cases hex : (process_file_with_enhanced_extraction ex d).1 with
      | none => rw [hex] at hq1; simp at hq1
      | some ti =>
        obtain ⟨text, images⟩ := ti
        rw [hex] at hq1
        cases hdoc : (processDoc env d.name images).2 with
        | none => simp [hdoc] at hq1
        | some qs =>
          simp only [hdoc] at hq1
          have h3 : retryLoop env d.name images max_retries 0
              = ((processDoc env d.name images).1, some qs) := by
            rw [← hdoc]
            rfl
          obtain ⟨q1, rfl⟩ :=
            retryLoop_success_shape env d.name images max_retries 0 _ qs h3
              q hq1
          exact cleanupFields_strips q1
    · exact ih q hq2

/-- Claim C5, witness: the single record produced by a one-document
batch carries none of the three transient fields. -/
theorem C5_witness :
    dictGet? [("questionStem", Json.str "s")] "hasImage" = none
    ∧ dictGet? [("questionStem", Json.str "s")] "imagePosition" = none
    ∧ dictGet? [("questionStem", Json.str "s")] "source_file" = none :=
  C5_transients_stripped exEnvC pipeOneRecord [docC]
    [("questionStem", Json.str "s")] (List.Mem.head _)

/-! ## Claim C7 -/

lemma stemMatches_iff (row r : PyDict) (s : String) (hr : stemKey r = some s) :
    stemMatches row r = true ↔ stemKey row = some s := by
  simp only [stemMatches, hr]
  cases hk : stemKey row with
  | none => simp
  | some a => simp

lemma upsert_stemRows (r : PyDict) (s : String) (hr : stemKey r = some s) :
    ∀ t : List PyDict, stemCount s t ≤ 1 →
      stemRows s (upsertRow t r) = [r] := by
  intro t
  induction t with
  | nil =>
    intro _
    simp [upsertRow, stemRows, hr]
  | cons row rest ih =>
    intro hc
    by_cases hm : stemMatches row r = true
    · have hrow : stemKey row = some s := (stemMatches_iff row r s hr).mp hm
      have hcc : stemCount s (row :: rest) = stemCount s rest + 1 := by
        unfold stemCount
        rw [List.countP_cons]
        simp [hrow]
      have hrest : stemCount s rest = 0 := by omega
      have hfil : stemRows s rest = [] := by
        unfold stemRows
        rw [List.filter_eq_nil_iff]
        intro x hx
        have h0 : List.countP (fun y => decide (stemKey y = some s)) rest = 0 :=
          hrest
        simpa using List.countP_eq_zero.mp h0 x hx
      have hstep : upsertRow (row :: rest) r = r :: rest := by
        simp only [upsertRow, if_pos hm]
      rw [hstep]
      unfold stemRows at hfil ⊢
      rw [List.filter_cons, if_pos (by simp [hr]), hfil]
    · have hrow : ¬ stemKey row = some s := by
        intro hcon
        exact hm ((stemMatches_iff row r s hr).mpr hcon)
      have hcc : stemCount s (row :: rest) = stemCount s rest := by
        unfold stemCount
        rw [List.countP_cons]
        simp [hrow]
      have hc2 : stemCount s rest ≤ 1 := by omega
      have hstep : upsertRow (row :: rest) r = row :: upsertRow rest r := by
        simp only [upsertRow, if_neg hm]
      rw [hstep]
      have hgoal := ih hc2
      unfold stemRows at hgoal ⊢
      rw [List.filter_cons, if_neg (by simpa using hrow)]
      exact hgoal

/-- Claim C7: against any store holding at most one row for a stem
text `s`, upserting two records with that same stem — consecutively in
one batch, or equivalently across two batches (second conjunct) —
leaves exactly one row with stem `s`, and that row is the later
record's content. -/
theorem C7_upsert_idempotent :
    ∀ (t : List PyDict) (r1 r2 : PyDict) (s : String),
      stemCount s t ≤ 1 →
      stemKey r1 = some s → stemKey r2 = some s →
      stemRows s (uploadAll t [r1, r2]) = [r2]
      ∧ uploadAll (uploadAll t [r1]) [r2] = uploadAll t [r1, r2] := by
  intro t r1 r2 s hc h1 h2
  have e1 : stemRows s (upsertRow t r1) = [r1] := upsert_stemRows r1 s h1 t hc
  have hc1 : stemCount s (upsertRow t r1) ≤ 1 := by
    have hlen : stemCount s (upsertRow t r1)
        = (stemRows s (upsertRow t r1)).length := by
      unfold stemCount stemRows
      rw [List.countP_eq_length_filter]
    rw [hlen, e1]
    simp
  have e2 := upsert_stemRows r2 s h2 (upsertRow t r1) hc1
  exact ⟨e2, rfl⟩

/-- Claim C7, witness: two records with the stem text `"q"` and
different explanations upserted into an empty store leave exactly one
row, the later one. -/
theorem C7_witness :
    stemRows "q" (uploadAll []
        [[("questionStem", Json.str "q"), ("explanationList", Json.str "e1")],
         [("questionStem", Json.str "q"), ("explanationList", Json.str "e2")]])
      = [[("questionStem", Json.str "q"), ("explanationList", Json.str "e2")]]
    ∧ uploadAll (uploadAll []
          [[("questionStem", Json.str "q"), ("explanationList", Json.str "e1")]])
        [[("questionStem", Json.str "q"), ("explanationList", Json.str "e2")]]
      = uploadAll []
          [[("questionStem", Json.str "q"), ("explanationList", Json.str "e1")],
           [("questionStem", Json.str "q"), ("explanationList", Json.str "e2")]] :=
  C7_upsert_idempotent [] _ _ "q" (by decide) rfl rfl

/-- Claim C9, witness: the record at position 0 with `hasImage: true`
and no `imagePosition` key gets image 0 bound. -/
theorem C9_witness :
    bindQuestion (fun _ _ _ => some "https://bucket/img0.png")
        [⟨"payload", "p0.png"⟩] 0
        [("hasImage", Json.bool true), ("questionStem", Json.str "s")]
      = Except.ok [("questionStem", Json.str "s"),
                   ("image", Json.str "https://bucket/img0.png")] :=
  C9_default_position _ [⟨"payload", "p0.png"⟩] 0
    [("hasImage", Json.bool true), ("questionStem", Json.str "s")]
    "https://bucket/img0.png" (by norm_num) rfl rfl rfl
